import Mathlib

/-!
Verification of the task collection management engine of the todo-app
repository.

The engine exists in two variants with identical in-memory logic:

* a local, browser-storage-backed hook (`src/hooks/useTasks.ts`), whose list
  manipulation is pure and modelled here directly on `List Task`;
* a remote, authenticated hook (`useTasks` over the `todos` table), modelled
  as functions on a `RemoteState` (current user plus canonical collection)
  that additionally take the persistence adapter's outcome as a parameter
  and return the number of user-visible failure notifications (toasts)
  emitted.

Timestamps (`Date` values) are modelled as `Int` epoch milliseconds.
The calendar functions of the external `date-fns` library (`isSameDay`,
`isThisWeek`) are abstracted as parameters of a `TimeEnv`; `isPast d` is
`d < now` exactly as in `date-fns`.
-/

namespace TodoApp

/-- Priority of a task, one of `'low' | 'medium' | 'high'`. -/
inductive Priority where
  | low
  | medium
  | high
deriving DecidableEq

/-- Recurring pattern, one of `'daily' | 'weekly' | 'monthly'`. -/
inductive RecurringPattern where
  | daily
  | weekly
  | monthly
deriving DecidableEq

/-- The `Task` entity from `types/todo.ts`.  Optional TS fields become
`Option`; `Date` fields become `Int` epoch milliseconds. -/
structure Task where
  id : String
  title : String
  description : Option String
  completed : Bool
  createdAt : Int
  dueDate : Option Int
  priority : Priority
  tags : List String
  categoryId : Option String
  reminder : Option Int
  isRecurring : Option Bool
  recurringPattern : Option RecurringPattern
  order : Int
deriving DecidableEq

/-- The argument type `Partial<Task>` of `updateTask`.  An outer `none`
means the field is absent from the partial object; `some v` means the field
is supplied with value `v` (for TS-optional fields `v` is itself an
`Option`, so `some none` models a field supplied as `undefined`). -/
structure PartialTask where
  id : Option String := none
  title : Option String := none
  description : Option (Option String) := none
  completed : Option Bool := none
  createdAt : Option Int := none
  dueDate : Option (Option Int) := none
  priority : Option Priority := none
  tags : Option (List String) := none
  categoryId : Option (Option String) := none
  reminder : Option (Option Int) := none
  isRecurring : Option (Option Bool) := none
  recurringPattern : Option (Option RecurringPattern) := none
  order : Option Int := none
deriving DecidableEq

/-- The spread merge `{ ...task, ...updates }` from `updateTask`: every
field supplied by `updates` overwrites the task's field, every other field
is kept. -/
def mergeTask (t : Task) (p : PartialTask) : Task where
  id := p.id.getD t.id
  title := p.title.getD t.title
  description := p.description.getD t.description
  completed := p.completed.getD t.completed
  createdAt := p.createdAt.getD t.createdAt
  dueDate := p.dueDate.getD t.dueDate
  priority := p.priority.getD t.priority
  tags := p.tags.getD t.tags
  categoryId := p.categoryId.getD t.categoryId
  reminder := p.reminder.getD t.reminder
  isRecurring := p.isRecurring.getD t.isRecurring
  recurringPattern := p.recurringPattern.getD t.recurringPattern
  order := p.order.getD t.order

/-- The `options` argument of `addTask` in both variants. -/
structure AddOptions where
  description : Option String := none
  dueDate : Option Int := none
  priority : Option Priority := none
  tags : Option (List String) := none
  categoryId : Option String := none
  reminder : Option Int := none
  isRecurring : Option Bool := none
  recurringPattern : Option RecurringPattern := none
deriving DecidableEq

/-- The new task built by the local variant's `addTask` (`useTasks.ts`
lines 60-74): `generateId()` and `new Date()` are modelled as the
parameters `newId` and `now`; `options?.priority || 'medium'` defaults the
priority, `options?.tags || []` defaults the tags, and
`order: tasks.length` assigns the current count. -/
def mkNewTask (newId : String) (now : Int) (title : String) (opts : AddOptions)
    (currentCount : Nat) : Task where
  id := newId
  title := title
  description := opts.description
  completed := false
  createdAt := now
  dueDate := opts.dueDate
  priority := opts.priority.getD .medium
  tags := opts.tags.getD []
  categoryId := opts.categoryId
  reminder := opts.reminder
  isRecurring := opts.isRecurring
  recurringPattern := opts.recurringPattern
  order := (currentCount : Int)

/-- Local `addTask`: builds the new task and prepends it
(`setTasks(prev => [newTask, ...prev])`), returning the task as well. -/
def addTask (tasks : List Task) (newId : String) (now : Int) (title : String)
    (opts : AddOptions) : Task × List Task :=
  let newTask := mkNewTask newId now title opts tasks.length
  (newTask, newTask :: tasks)

/-- Local and remote in-memory `updateTask`:
`prev.map(task => task.id === id ? { ...task, ...updates } : task)`. -/
def updateTask (tasks : List Task) (id : String) (p : PartialTask) : List Task :=
  tasks.map fun t => if t.id = id then mergeTask t p else t

/-- Local and remote in-memory `deleteTask`:
`prev.filter(task => task.id !== id)`. -/
def deleteTask (tasks : List Task) (id : String) : List Task :=
  tasks.filter fun t => t.id ≠ id

/-- Local `toggleComplete`:
`prev.map(task => task.id === id ? { ...task, completed: !task.completed } : task)`. -/
def toggleComplete (tasks : List Task) (id : String) : List Task :=
  tasks.map fun t => if t.id = id then { t with completed := !t.completed } else t

/-- Models the object produced at runtime by `{ ...removed, order: index }`
when `result.splice(startIndex, 1)` removed nothing (out-of-range
`startIndex`), so that `removed` is `undefined`: spreading `undefined`
contributes no fields, leaving an object carrying only `order`.  All other
fields of this sentinel stand for absent (`undefined`) runtime values; no
theorem below depends on the sentinel's field values. -/
def undefinedSpliceTask : Task where
  id := ""
  title := ""
  description := none
  completed := false
  createdAt := 0
  dueDate := none
  priority := .medium
  tags := []
  categoryId := none
  reminder := none
  isRecurring := none
  recurringPattern := none
  order := 0

/-- Local and remote in-memory `reorderTasks` list transformation:
`result.splice(startIndex, 1)` removes the element at `startIndex` when in
range (and nothing otherwise, leaving `removed` equal to `undefined`);
`result.splice(endIndex, 0, removed)` reinserts it, with `endIndex` clamped
to the list length as JavaScript `splice` does; finally
`result.map((task, index) => ({ ...task, order: index }))` renumbers every
task's `order` to its positional index. -/
def reorderTasks (tasks : List Task) (startIndex endIndex : Nat) : List Task :=
  let afterRemove := tasks.eraseIdx startIndex
  let inserted :=
    match tasks[startIndex]? with
    | some removed => afterRemove.insertIdx (min endIndex afterRemove.length) removed
    | none => afterRemove.insertIdx (min endIndex afterRemove.length) undefinedSpliceTask
  inserted.mapIdx fun i t => { t with order := (i : Int) }

/-- The standard list move-element operation the spec refers to: remove the
element at `fromIdx`, reinsert it at `toIdx`.  Stated on an arbitrary
element type so it can be compared with the engine's identity sequence. -/
def specMoveElement {α : Type} (l : List α) (fromIdx toIdx : Nat) : List α :=
  match l[fromIdx]? with
  | some x => (l.eraseIdx fromIdx).insertIdx toIdx x
  | none => l

/-! ### View computation (filters, sort, statistics, suggestions) -/

/-- Filter, one of `'all' | 'active' | 'completed'`. -/
inductive FilterType where
  | all
  | active
  | completed
deriving DecidableEq

/-- Sort key, one of `'date' | 'priority' | 'name' | 'dueDate'`. -/
inductive SortType where
  | date
  | priority
  | name
  | dueDate
deriving DecidableEq

/-- The engine-local view parameters (filter, sort, search text, selected
category, selected tags). -/
structure ViewParams where
  filter : FilterType := .all
  sort : SortType := .date
  searchQuery : String := ""
  selectedCategory : Option String := none
  selectedTags : List String := []
deriving DecidableEq

/-- JavaScript `String.prototype.trim`: drop leading and trailing
whitespace.  Modelled on the string's character list so that it evaluates
by kernel reduction. -/
def jsTrim (s : String) : String :=
  String.mk
    (((s.data.dropWhile Char.isWhitespace).reverse.dropWhile
        Char.isWhitespace).reverse)

/-- Boolean infix test on character lists, modelling JavaScript
`String.prototype.includes` after both strings are lowercased. -/
def charsSubstr (p : List Char) : List Char → Bool
  | [] => p.isEmpty
  | c :: cs => p.isPrefixOf (c :: cs) || charsSubstr p cs

/-- JavaScript `s.includes(q)`: `q` occurs as a contiguous substring of
`s`. -/
def jsIncludes (s q : String) : Bool :=
  charsSubstr q.toList s.toList

/-- The completion-status filter step of `filteredAndSortedTasks`. -/
def applyStatusFilter (f : FilterType) (l : List Task) : List Task :=
  match f with
  | .active => l.filter fun t => !t.completed
  | .completed => l.filter fun t => t.completed
  | .all => l

/-- The category filter step: `if (selectedCategory)` is JavaScript
truthiness on `string | null`, so `null` and the empty string disable the
filter; otherwise tasks are kept when `task.categoryId === selectedCategory`. -/
def applyCategoryFilter (sel : Option String) (l : List Task) : List Task :=
  match sel with
  | none => l
  | some c => if c = "" then l else l.filter fun t => t.categoryId = some c

/-- The tag filter step: when the selected tag list is non-empty, keep
tasks whose tag list intersects it
(`selectedTags.some(tag => task.tags.includes(tag))`). -/
def applyTagFilter (selectedTags : List String) (l : List Task) : List Task :=
  if selectedTags.length > 0 then
    l.filter fun t => selectedTags.any fun tag => t.tags.contains tag
  else l

/-- The search step: when the trimmed query is non-empty, keep tasks whose
lowercased title, description or any tag contains the lowercased query as a
substring.  A `none` description contributes `false`
(`task.description?.toLowerCase().includes(query)` is `undefined`). -/
def applySearch (searchQuery : String) (l : List Task) : List Task :=
  if jsTrim searchQuery = "" then l
  else
    let query := searchQuery.toLower
    l.filter fun t =>
      jsIncludes t.title.toLower query ||
      (match t.description with
       | some d => jsIncludes d.toLower query
       | none => false) ||
      t.tags.any fun tag => jsIncludes tag.toLower query

/-- All four filter steps of `filteredAndSortedTasks`, in source order:
status, category, tags, search. -/
def applyFilters (p : ViewParams) (l : List Task) : List Task :=
  applySearch p.searchQuery
    (applyTagFilter p.selectedTags
      (applyCategoryFilter p.selectedCategory
        (applyStatusFilter p.filter l)))

/-- `priorityOrder = { high: 0, medium: 1, low: 2 }` from the sort
comparator. -/
def priorityOrder : Priority → Int
  | .high => 0
  | .medium => 1
  | .low => 2

/-- String comparison modelling `a.title.localeCompare(b.title)` as
code-point lexicographic comparison (the locale-aware collation of the
JavaScript runtime is outside the embedding). -/
def strCmp (a b : String) : Int :=
  if a = b then 0 else if a < b then -1 else 1

/-- The sort comparator of `filteredAndSortedTasks`, by sort key:
`date` is descending `createdAt`, `dueDate` is ascending with absent due
dates after all present ones (and mutually equal), `priority` is high
before medium before low, `name` is ascending by title. -/
def cmpTasks (s : SortType) (a b : Task) : Int :=
  match s with
  | .date => b.createdAt - a.createdAt
  | .dueDate =>
    match a.dueDate, b.dueDate with
    | none, none => 0
    | none, some _ => 1
    | some _, none => -1
    | some x, some y => x - y
  | .priority => priorityOrder a.priority - priorityOrder b.priority
  | .name => strCmp a.title b.title

/-- The boolean "at most" relation induced by the comparator; JavaScript's
`Array.prototype.sort` with comparator `c` performs a stable sort whose
result is sorted with respect to `fun a b => c a b ≤ 0`. -/
def taskLe (s : SortType) (a b : Task) : Bool :=
  decide (cmpTasks s a b ≤ 0)

/-- `filteredAndSortedTasks`: the presented sequence, derived by filtering
the canonical collection and then stable-sorting it with the comparator.
JavaScript's `sort` is stable, so it is modelled by `List.mergeSort`. -/
def filteredAndSortedTasks (p : ViewParams) (tasks : List Task) : List Task :=
  (applyFilters p tasks).mergeSort (taskLe p.sort)

/-- Abstraction of the current clock and of the calendar bucketing done by
the external `date-fns` helpers: `now` is the current epoch-millisecond
instant, `sameDay a b` models `isSameDay`, and `sameWeek a b` models
`isThisWeek`-style bucketing against `b`. -/
structure TimeEnv where
  now : Int
  sameDay : Int → Int → Bool
  sameWeek : Int → Int → Bool

/-- The `TaskStats` record. -/
structure TaskStats where
  total : Nat
  completed : Nat
  active : Nat
  overdue : Nat
  completedToday : Nat
  completedThisWeek : Nat
deriving DecidableEq

/-- The overdue predicate from `stats`:
`t.dueDate && isPast(t.dueDate) && !isSameDay(t.dueDate, now)` — an active
task with a due date strictly in the past and not on today's calendar
day. -/
def isOverdue (env : TimeEnv) (t : Task) : Bool :=
  match t.dueDate with
  | none => false
  | some d => decide (d < env.now) && !env.sameDay d env.now

/-- The `stats` memo: counts of all, completed, active, overdue,
completed-today and completed-this-week tasks, the latter two keyed by
`createdAt`. -/
def taskStats (env : TimeEnv) (tasks : List Task) : TaskStats where
  total := tasks.length
  completed := (tasks.filter fun t => t.completed).length
  active := (tasks.filter fun t => !t.completed).length
  overdue := ((tasks.filter fun t => !t.completed).filter (isOverdue env)).length
  completedToday :=
    ((tasks.filter fun t => t.completed).filter fun t =>
      env.sameDay t.createdAt env.now).length
  completedThisWeek :=
    ((tasks.filter fun t => t.completed).filter fun t =>
      env.sameWeek t.createdAt env.now).length

/-- The overdue suggestion text with its interpolated count. -/
def overdueMsg (n : Nat) : String :=
  toString n ++ " görev zamanını geçirmiş!"

/-- The congratulation suggestion text. -/
def congratsMsg : String :=
  "Harika gidiyorsun! Bugün 5+ görev tamamladın 🎉"

/-- The prioritization warning text. -/
def prioMsg : String :=
  "Çok fazla yüksek öncelikli görev var. Bazılarını yeniden değerlendir."

/-- The active high-priority tasks counted by `smartSuggestions`:
`tasks.filter(t => !t.completed && t.priority === 'high')`. -/
def highPriorityActive (tasks : List Task) : List Task :=
  tasks.filter fun t => !t.completed && t.priority = .high

/-- The `smartSuggestions` memo: pushes the overdue warning when the
overdue count is positive, then the congratulation when at least five tasks
were completed today, then the prioritization warning when more than three
active tasks have high priority. -/
def smartSuggestions (env : TimeEnv) (tasks : List Task) : List String :=
  let stats := taskStats env tasks
  let s0 : List String := []
  let s1 := if stats.overdue > 0 then s0 ++ [overdueMsg stats.overdue] else s0
  let s2 := if stats.completedToday ≥ 5 then s1 ++ [congratsMsg] else s1
  if (highPriorityActive tasks).length > 3 then s2 ++ [prioMsg] else s2

/-! ### Remote (authenticated) variant

The remote hook has the same in-memory list logic, guarded by the current
user and driven by the Supabase adapter.  Each operation is modelled as a
function of the adapter's outcome, returning the new state paired with the
number of user-visible failure notifications (`toast` calls with the
destructive variant) it emits. -/

/-- The remote hook's state: the authenticated user (or `none`) and the
canonical in-memory collection. -/
structure RemoteState where
  user : Option String
  tasks : List Task
deriving DecidableEq

/-- JavaScript `x || null` followed by `y || undefined` on an optional
string round-trip: an absent or empty string becomes absent. -/
def jsStrOrNone (s : Option String) : Option String :=
  match s with
  | none => none
  | some v => if v = "" then none else some v

/-- UTC truncation of an epoch-millisecond instant to the start of its
day, modelling `dueDate.toISOString().split('T')[0]` followed by
`new Date(data.due_date)`. -/
def utcDayStart (ms : Int) : Int :=
  ms - ms % 86400000

/-- The row echoed back by `insert(...).select().single()` supplies the
database-assigned id and creation instant; `completed` takes its column
default `false`. -/
structure AddEcho where
  id : String
  createdAt : Int
deriving DecidableEq

/-- The task the remote `addTask` builds from the echoed row (lines
105-119 of the remote hook): the payload fields round-trip through the
wire encoding (`|| null` / `|| undefined` on strings, date-only encoding
of `due_date`, `is_recurring` defaulted to `false`), `completed` is the
column default `false`, and `order` is the inserted `tasks.length`
(`data.order || 0` is the identity on it). -/
def remoteEchoTask (echo : AddEcho) (title : String) (opts : AddOptions)
    (currentCount : Nat) : Task where
  id := echo.id
  title := title
  description := jsStrOrNone opts.description
  completed := false
  createdAt := echo.createdAt
  dueDate := opts.dueDate.map utcDayStart
  priority := opts.priority.getD .medium
  tags := opts.tags.getD []
  categoryId := jsStrOrNone opts.categoryId
  reminder := opts.reminder
  isRecurring := some (opts.isRecurring.getD false)
  recurringPattern := opts.recurringPattern
  order := (currentCount : Int)

/-- Remote `fetchTasks`: with no user the collection is forced empty with
no notification; with a user, a successful load replaces the collection
with the adapter's data and a failed load keeps the stale collection and
emits one failure toast. -/
def fetchTasksR (st : RemoteState) (outcome : Option (List Task)) :
    RemoteState × Nat :=
  match st.user with
  | none => ({ st with tasks := [] }, 0)
  | some _ =>
    match outcome with
    | some data => ({ st with tasks := data }, 0)
    | none => (st, 1)

/-- Remote `addTask`: returns `null` immediately with no user; on adapter
failure emits one failure toast and leaves the collection unchanged; on
success prepends the task built from the echoed row. -/
def addTaskR (st : RemoteState) (outcome : Option AddEcho) (title : String)
    (opts : AddOptions) : RemoteState × Nat :=
  match st.user with
  | none => (st, 0)
  | some _ =>
    match outcome with
    | none => (st, 1)
    | some echo =>
      ({ st with
          tasks := remoteEchoTask echo title opts st.tasks.length :: st.tasks }, 0)

/-- Remote `updateTask`: returns immediately with no user; on adapter
failure emits one failure toast and leaves the collection unchanged; on
success applies the spread merge to the matching task. -/
def updateTaskR (st : RemoteState) (adapterOk : Bool) (id : String)
    (p : PartialTask) : RemoteState × Nat :=
  match st.user with
  | none => (st, 0)
  | some _ =>
    if adapterOk then ({ st with tasks := updateTask st.tasks id p }, 0)
    else (st, 1)

/-- Remote `deleteTask`: returns immediately with no user; on adapter
failure emits one failure toast and retains the task; on success filters
it out. -/
def deleteTaskR (st : RemoteState) (adapterOk : Bool) (id : String) :
    RemoteState × Nat :=
  match st.user with
  | none => (st, 0)
  | some _ =>
    if adapterOk then ({ st with tasks := deleteTask st.tasks id }, 0)
    else (st, 1)

/-- Remote `toggleComplete`: looks the task up in the collection and, when
present, delegates to the remote `updateTask` with the complemented
`completed` value; otherwise does nothing. -/
def toggleCompleteR (st : RemoteState) (adapterOk : Bool) (id : String) :
    RemoteState × Nat :=
  match st.tasks.find? (fun t => t.id = id) with
  | none => (st, 0)
  | some t => updateTaskR st adapterOk id { completed := some (!t.completed) }

/-- Remote `reorderTasks`: renumbers the in-memory collection immediately
and then issues one database write per task whose results are never
inspected — there is no user guard, no rollback and no failure toast, so
the per-row adapter outcomes are ignored. -/
def reorderTasksR (st : RemoteState) (_adapterOutcomes : List Bool)
    (startIndex endIndex : Nat) : RemoteState × Nat :=
  ({ st with tasks := reorderTasks st.tasks startIndex endIndex }, 0)

/-! ### Presentation-layer guards (`TaskForm.tsx`)

The engine performs no title validation and no tag deduplication; both live
in the task form, modelled here because two claims turn on where that
enforcement happens. -/

/-- The payload `TaskForm` submits to `onSubmit`. -/
structure SubmitData where
  title : String
  description : Option String
  dueDate : Option Int
  priority : Priority
  tags : List String
  categoryId : Option String
deriving DecidableEq

/-- The form's `handleSubmit`: returns without submitting when the trimmed
title is empty (`if (!title.trim()) return;`); otherwise submits the
trimmed title and fields (`description.trim() || undefined`). -/
def handleSubmit (title description : String) (dueDate : Option Int)
    (priority : Priority) (tags : List String) (categoryId : Option String) :
    Option SubmitData :=
  if jsTrim title = "" then none
  else
    some
      { title := jsTrim title
        description := if jsTrim description = "" then none else some (jsTrim description)
        dueDate := dueDate
        priority := priority
        tags := tags
        categoryId := categoryId }

/-- The form's `addTag`: appends the trimmed tag input and clears the
input field only when the trimmed input is non-empty and not already among
the tags (`if (tagInput.trim() && !tags.includes(tagInput.trim()))`). -/
def formAddTag (tags : List String) (tagInput : String) :
    List String × String :=
  if jsTrim tagInput ≠ "" ∧ jsTrim tagInput ∉ tags then
    (tags ++ [jsTrim tagInput], "")
  else (tags, tagInput)

/-! ### Concrete sample data used to instantiate the theorems -/

/-- A sample incomplete task with a due date. -/
def taskA : Task where
  id := "a"
  title := "Alpha"
  description := none
  completed := false
  createdAt := 10
  dueDate := some 5
  priority := .medium
  tags := ["x"]
  categoryId := none
  reminder := none
  isRecurring := none
  recurringPattern := none
  order := 0

/-- A sample completed high-priority task without a due date. -/
def taskB : Task where
  id := "b"
  title := "Beta"
  description := none
  completed := true
  createdAt := 20
  dueDate := none
  priority := .high
  tags := []
  categoryId := none
  reminder := none
  isRecurring := none
  recurringPattern := none
  order := 1

/-- A sample task with an early due date. -/
def taskC : Task where
  id := "c"
  title := "Gamma"
  description := some "notes"
  completed := false
  createdAt := 30
  dueDate := some 2
  priority := .low
  tags := ["x", "y"]
  categoryId := some "work"
  reminder := none
  isRecurring := none
  recurringPattern := none
  order := 2

/-- Sample view parameters selecting the due-date sort with no filters. -/
def sampleParams : ViewParams where
  filter := .all
  sort := .dueDate
  searchQuery := ""
  selectedCategory := none
  selectedTags := []

/-- A sample clock with day and week buckets of fixed width. -/
def sampleEnv : TimeEnv where
  now := 100
  sameDay := fun a b => decide (a / 86400000 = b / 86400000)
  sameWeek := fun a b => decide (a / 604800000 = b / 604800000)

/-- One add call of a sequence: its generated id, creation instant, title
and options. -/
structure AddCall where
  newId : String
  now : Int
  title : String
  opts : AddOptions
deriving DecidableEq

/-- A sequence of add calls applied to a collection, each prepending its
new task. -/
def addSeqFrom (tasks : List Task) (calls : List AddCall) : List Task :=
  calls.foldl (fun acc c => (addTask acc c.newId c.now c.title c.opts).2) tasks

/-- A sequence of add calls starting from the empty collection. -/
def addSeq (calls : List AddCall) : List Task :=
  addSeqFrom [] calls

/-! ## Theorems -/

/-- Mapping a function commutes with removing the element at an index. -/
theorem map_eraseIdx_eq {α β : Type} (f : α → β) :
    ∀ (l : List α) (i : Nat), (l.eraseIdx i).map f = (l.map f).eraseIdx i
  | [], _ => rfl
  | _ :: _, 0 => rfl
  | a :: l, i + 1 => by
    simp [List.eraseIdx_cons_succ, map_eraseIdx_eq f l i]

/-- Mapping a function commutes with inserting an element at an index. -/
theorem map_insertIdx_eq {α β : Type} (f : α → β) :
    ∀ (l : List α) (i : Nat) (x : α),
      (l.insertIdx i x).map f = (l.map f).insertIdx i (f x)
  | _, 0, _ => rfl
  | [], _ + 1, _ => rfl
  | a :: l, i + 1, x => by
    simp [List.insertIdx_succ_cons, map_insertIdx_eq f l i x]

/-- Projecting through the index-renumbering map leaves any field other
than `order` untouched. -/
theorem mapIdx_order_map {β : Type} (g : Task → β)
    (hg : ∀ (t : Task) (o : Int), g { t with order := o } = g t)
    (l : List Task) :
    (l.mapIdx fun i t => { t with order := (i : Int) }).map g = l.map g := by
  apply List.ext_getElem
  · simp
  · intro i h1 h2
    simp only [List.getElem_map, List.getElem_mapIdx]
    exact hg _ _

/-- Claim C3: a reorder with valid indices realises the standard
move-element operation on the sequence of task identities, preserves the
collection's size, and renumbers every task's `order` to its new
positional index (a dense permutation of `0..N-1`). -/
theorem C3_reorder_move (tasks : List Task) (s e : Nat)
    (hs : s < tasks.length) (he : e < tasks.length) :
    ((reorderTasks tasks s e).map fun t => t.id)
        = specMoveElement (tasks.map fun t => t.id) s e
    ∧ (reorderTasks tasks s e).length = tasks.length
    ∧ ∀ (i : Nat) (t : Task),
        (reorderTasks tasks s e)[i]? = some t → t.order = (i : Int) := by
  have hget : tasks[s]? = some tasks[s] := List.getElem?_eq_getElem hs
  have hlen_erase : (tasks.eraseIdx s).length = tasks.length - 1 := by
    rw [List.length_eraseIdx]
    simp [hs]
  have he' : e ≤ (tasks.eraseIdx s).length := by
    rw [hlen_erase]; omega
  have hmin : min e (tasks.eraseIdx s).length = e := min_eq_left he'
  have hlen_ins :
      ((tasks.eraseIdx s).insertIdx e tasks[s]).length = tasks.length := by
    rw [List.length_insertIdx _ _ he', hlen_erase]
    omega
  have hre : reorderTasks tasks s e =
      ((tasks.eraseIdx s).insertIdx e tasks[s]).mapIdx
        fun i t => { t with order := (i : Int) } := by
    simp only [reorderTasks, hget, hmin]
  refine ⟨?_, ?_, ?_⟩
  · rw [hre, mapIdx_order_map (fun t => t.id) (fun _ _ => rfl),
      map_insertIdx_eq, map_eraseIdx_eq]
    simp [specMoveElement, List.getElem?_map, hget]
  · rw [hre]
    simp [hlen_ins]
  · intro i t ht
    rw [hre] at ht
    obtain ⟨hlt, hoeq⟩ := List.getElem?_eq_some.mp ht
    rw [List.getElem_mapIdx] at hoeq
    rw [← hoeq]

/-- Claim C3 witness: moving the front task to the back of a concrete
three-task collection. -/
theorem C3_reorder_move_witness :
    ((reorderTasks [taskA, taskB, taskC] 0 2).map fun t => t.id)
        = specMoveElement ([taskA, taskB, taskC].map fun t => t.id) 0 2
    ∧ (reorderTasks [taskA, taskB, taskC] 0 2).length = 3
    ∧ ∀ (i : Nat) (t : Task),
        (reorderTasks [taskA, taskB, taskC] 0 2)[i]? = some t →
        t.order = (i : Int) := by
  exact C3_reorder_move [taskA, taskB, taskC] 0 2 (by decide) (by decide)

/-- Auxiliary induction for claim C6: a sequence of adds applied to any
collection pushes decreasing fresh `order` values (the successive lengths,
newest first) in front of the old `order` values, and lists the new ids in
reverse call order in front of the old ids. -/
theorem addSeqFrom_spec (calls : List AddCall) : ∀ (tasks : List Task),
    ((addSeqFrom tasks calls).map fun t => t.order)
      = ((List.range' tasks.length calls.length).reverse.map Int.ofNat)
          ++ (tasks.map fun t => t.order)
    ∧ ((addSeqFrom tasks calls).map fun t => t.id)
      = (calls.map fun c => c.newId).reverse ++ (tasks.map fun t => t.id) := by
  induction calls with
  | nil => intro tasks; simp [addSeqFrom]
  | cons c cs ih =>
    intro tasks
    have step : addSeqFrom tasks (c :: cs)
        = addSeqFrom (mkNewTask c.newId c.now c.title c.opts tasks.length :: tasks)
            cs := rfl
    obtain ⟨ho, hi⟩ :=
      ih (mkNewTask c.newId c.now c.title c.opts tasks.length :: tasks)
    constructor
    · rw [step, ho]
      simp only [List.length_cons, List.range'_succ]
      simp [mkNewTask, List.append_assoc]
    · rw [step, hi]
      simp [mkNewTask, List.append_assoc]

/-- Claim C6: after any sequence of adds starting from the empty
collection, the raw `order` fields read, front to back, `N-1, …, 1, 0` —
exactly the dense contiguous set `0..N-1`, each add having assigned the
current count — and the collection lists the task ids in reverse insertion
order (each new task prepended, newest first). -/
theorem C6_add_sequence (calls : List AddCall) :
    ((addSeq calls).map fun t => t.order)
      = ((List.range calls.length).reverse.map Int.ofNat)
    ∧ ((addSeq calls).map fun t => t.id)
      = (calls.map fun c => c.newId).reverse := by
  have h := addSeqFrom_spec calls []
  simpa [addSeq, List.range_eq_range'] using h

/-- The due-date comparator's induced relation is transitive. -/
theorem dueLe_trans (a b c : Task) (hab : taskLe .dueDate a b = true)
    (hbc : taskLe .dueDate b c = true) : taskLe .dueDate a c = true := by
  simp only [taskLe, decide_eq_true_eq, cmpTasks] at hab hbc ⊢
  rcases hda : a.dueDate with _ | x <;> rcases hdb : b.dueDate with _ | y <;>
    rcases hdc : c.dueDate with _ | z <;> simp_all <;> omega

/-- The due-date comparator's induced relation is total. -/
theorem dueLe_total (a b : Task) :
    (taskLe .dueDate a b || taskLe .dueDate b a) = true := by
  simp only [taskLe, Bool.or_eq_true, decide_eq_true_eq, cmpTasks]
  rcases hda : a.dueDate with _ | x <;> rcases hdb : b.dueDate with _ | y <;>
    simp_all <;> omega

/-- Claim C9: with the due-date sort active, the presented sequence is a
permutation of the filtered collection, ordered so that whenever a task
with a due date appears, every task before it has a due date at most as
late (hence ascending among dated tasks, and all undated tasks after all
dated ones); undated tasks compare equal under the comparator; and the
sort is stable — any two tasks the comparator ties keep their pre-sort
relative order. -/
theorem C9_dueDate_sort (p : ViewParams) (tasks : List Task)
    (hsort : p.sort = .dueDate) :
    (filteredAndSortedTasks p tasks).Perm (applyFilters p tasks)
    ∧ (filteredAndSortedTasks p tasks).Pairwise
        (fun a b => ∀ y, b.dueDate = some y → ∃ x, a.dueDate = some x ∧ x ≤ y)
    ∧ (∀ a b : Task, a.dueDate = none → b.dueDate = none →
        cmpTasks .dueDate a b = 0)
    ∧ (∀ a b : Task, cmpTasks .dueDate a b = 0 →
        List.Sublist [a, b] (applyFilters p tasks) →
        List.Sublist [a, b] (filteredAndSortedTasks p tasks)) := by
  have hfs : filteredAndSortedTasks p tasks
      = (applyFilters p tasks).mergeSort (taskLe .dueDate) := by
    rw [filteredAndSortedTasks, hsort]
  refine ⟨?_, ?_, ?_, ?_⟩
  · rw [hfs]
    exact List.mergeSort_perm _ _
  · rw [hfs]
    have hp := List.sorted_mergeSort dueLe_trans dueLe_total
      (applyFilters p tasks)
    refine hp.imp ?_
    intro a b hab y hy
    simp only [taskLe, decide_eq_true_eq, cmpTasks, hy] at hab
    rcases ha : a.dueDate with _ | x
    · rw [ha] at hab
      simp at hab
    · rw [ha] at hab
      simp at hab
      exact ⟨x, rfl, by omega⟩
  · intro a b ha hb
    simp [cmpTasks, ha, hb]
  · intro a b hc hsub
    rw [hfs]
    refine List.sublist_mergeSort dueLe_trans dueLe_total ?_ hsub
    refine List.pairwise_cons.mpr ⟨?_, ?_⟩
    · intro y hy
      rw [List.mem_singleton] at hy
      subst hy
      simp [taskLe, hc]
    · simp

/-- Claim C9 witness: the due-date sort properties at a concrete
three-task collection under the sample view parameters. -/
theorem C9_dueDate_sort_witness :
    (filteredAndSortedTasks sampleParams [taskA, taskB, taskC]).Perm
        (applyFilters sampleParams [taskA, taskB, taskC])
    ∧ (filteredAndSortedTasks sampleParams [taskA, taskB, taskC]).Pairwise
        (fun a b => ∀ y, b.dueDate = some y → ∃ x, a.dueDate = some x ∧ x ≤ y)
    ∧ (∀ a b : Task, a.dueDate = none → b.dueDate = none →
        cmpTasks .dueDate a b = 0)
    ∧ (∀ a b : Task, cmpTasks .dueDate a b = 0 →
        List.Sublist [a, b] (applyFilters sampleParams [taskA, taskB, taskC]) →
        List.Sublist [a, b]
          (filteredAndSortedTasks sampleParams [taskA, taskB, taskC])) :=
  C9_dueDate_sort sampleParams [taskA, taskB, taskC] rfl

/-- The overdue warning always ends in an exclamation mark. -/
theorem overdueMsg_last (n : Nat) :
    (overdueMsg n).data.getLast? = some '!' := by
  show ((toString n ++ " görev zamanını geçirmiş!").data).getLast? = some '!'
  rw [String.data_append, List.getLast?_append]
  have h : (" görev zamanını geçirmiş!" : String).data.getLast? = some '!' := by
    decide
  rw [h]
  rfl

/-- The overdue warning never coincides with the congratulation. -/
theorem overdueMsg_ne_congrats (n : Nat) : overdueMsg n ≠ congratsMsg := by
  intro h
  have hd : (overdueMsg n).data.getLast? = congratsMsg.data.getLast? := by
    rw [h]
  rw [overdueMsg_last] at hd
  revert hd
  decide

/-- The overdue warning never coincides with the prioritization warning. -/
theorem overdueMsg_ne_prio (n : Nat) : overdueMsg n ≠ prioMsg := by
  intro h
  have hd : (overdueMsg n).data.getLast? = prioMsg.data.getLast? := by
    rw [h]
  rw [overdueMsg_last] at hd
  revert hd
  decide

/-- The congratulation and the prioritization warning differ. -/
theorem congratsMsg_ne_prio : congratsMsg ≠ prioMsg := by
  decide

/-- Claim C10: the suggestions list is exactly the concatenation, in the
order overdue warning, congratulation, prioritization warning, of the
messages whose conditions trigger (overdue count positive; at least five
completed today; strictly more than three active high-priority tasks), and
each message is present iff its condition triggers. -/
theorem C10_suggestions (env : TimeEnv) (tasks : List Task) :
    smartSuggestions env tasks =
      (if (taskStats env tasks).overdue > 0
        then [overdueMsg (taskStats env tasks).overdue] else [])
      ++ ((if (taskStats env tasks).completedToday ≥ 5
        then [congratsMsg] else [])
      ++ (if (highPriorityActive tasks).length > 3 then [prioMsg] else []))
    ∧ (overdueMsg (taskStats env tasks).overdue ∈ smartSuggestions env tasks
        ↔ (taskStats env tasks).overdue > 0)
    ∧ (congratsMsg ∈ smartSuggestions env tasks
        ↔ (taskStats env tasks).completedToday ≥ 5)
    ∧ (prioMsg ∈ smartSuggestions env tasks
        ↔ (highPriorityActive tasks).length > 3) := by
  have hne1 := fun n => overdueMsg_ne_congrats n
  have hne2 := fun n => overdueMsg_ne_prio n
  have hne3 := congratsMsg_ne_prio
  have heq : smartSuggestions env tasks =
      (if (taskStats env tasks).overdue > 0
        then [overdueMsg (taskStats env tasks).overdue] else [])
      ++ ((if (taskStats env tasks).completedToday ≥ 5
        then [congratsMsg] else [])
      ++ (if (highPriorityActive tasks).length > 3 then [prioMsg] else [])) := by
    by_cases h1 : (taskStats env tasks).overdue > 0 <;>
      by_cases h2 : (taskStats env tasks).completedToday ≥ 5 <;>
      by_cases h3 : (highPriorityActive tasks).length > 3 <;>
      simp [smartSuggestions, h1, h2, h3]
  refine ⟨heq, ?_, ?_, ?_⟩
  · rw [heq]
    constructor
    · intro hmem
      by_contra h1
      rw [if_neg h1] at hmem
      have hna := hne1 (taskStats env tasks).overdue
      have hnb := hne2 (taskStats env tasks).overdue
      split_ifs at hmem <;> simp_all
    · intro h1
      rw [if_pos h1]
      simp
  · rw [heq]
    constructor
    · intro hmem
      by_contra h2
      rw [if_neg h2] at hmem
      have hna := (hne1 (taskStats env tasks).overdue).symm
      split_ifs at hmem <;> simp_all
    · intro h2
      rw [if_pos h2]
      simp
  · rw [heq]
    constructor
    · intro hmem
      by_contra h3
      rw [if_neg h3] at hmem
      have hna := (hne2 (taskStats env tasks).overdue).symm
      have hnb := hne3.symm
      split_ifs at hmem <;> simp_all
    · intro h3
      rw [if_pos h3]
      simp

/-- Claim C1, counterexample: in the no-identity state (no user, empty
collection) the reorder mutation is not a no-op — it has no identity guard,
and splicing on the empty collection inserts the `undefined`-spread junk
element, so the canonical collection changes. -/
theorem C1_counterexample :
    (reorderTasksR { user := none, tasks := [] } [] 0 0).1.tasks ≠ [] := by
  decide

/-- Claim C1 (amended): in the no-identity state the canonical collection
is forced empty by the load, and the add, update, delete and
toggle-complete mutations are no-ops with no notification; the reorder
mutation, however, carries no identity guard and is not a no-op. -/
theorem C1_no_identity (st : RemoteState) (h : st.user = none) :
    (∀ outcome, fetchTasksR st outcome = ({ st with tasks := [] }, 0))
    ∧ (∀ outcome title opts, addTaskR st outcome title opts = (st, 0))
    ∧ (∀ ok id p, updateTaskR st ok id p = (st, 0))
    ∧ (∀ ok id, deleteTaskR st ok id = (st, 0))
    ∧ (st.tasks = [] → ∀ ok id, toggleCompleteR st ok id = (st, 0)) := by
  obtain ⟨u, ts⟩ := st
  simp only [RemoteState.mk.injEq] at h
  subst h
  refine ⟨fun outcome => ?_, fun outcome title opts => ?_, fun ok id p => ?_,
    fun ok id => ?_, fun hts ok id => ?_⟩
  · rfl
  · rfl
  · rfl
  · rfl
  · simp only at hts
    subst hts
    rfl

/-- Claim C1 witness: the amended no-ops at the concrete no-identity
state. -/
theorem C1_no_identity_witness :
    (∀ outcome,
      fetchTasksR { user := none, tasks := [] } outcome =
        ({ user := none, tasks := [] }, 0))
    ∧ (∀ outcome title opts,
      addTaskR { user := none, tasks := [] } outcome title opts =
        ({ user := none, tasks := [] }, 0))
    ∧ (∀ ok id p,
      updateTaskR { user := none, tasks := [] } ok id p =
        ({ user := none, tasks := [] }, 0))
    ∧ (∀ ok id,
      deleteTaskR { user := none, tasks := [] } ok id =
        ({ user := none, tasks := [] }, 0))
    ∧ (∀ ok id,
      toggleCompleteR { user := none, tasks := [] } ok id =
        ({ user := none, tasks := [] }, 0)) := by
  obtain ⟨h1, h2, h3, h4, h5⟩ := C1_no_identity { user := none, tasks := [] } rfl
  exact ⟨h1, h2, h3, h4, h5 rfl⟩

/-- Claim C2, counterexample: a reorder whose batch of per-row writes all
fail surfaces zero user-visible failure notifications, not exactly one —
the remote reorder never inspects the adapter's responses and has no
failure toast. -/
theorem C2_counterexample :
    (reorderTasksR { user := some "u", tasks := [taskA, taskB] }
        [false, false] 0 1).2 = 0
    ∧ (reorderTasksR { user := some "u", tasks := [taskA, taskB] }
        [false, false] 0 1).2 ≠ 1 := by
  exact ⟨rfl, by decide⟩

/-- Claim C2 (amended): when the persistence adapter fails, add, update
and delete leave the canonical collection in its pre-operation state and
surface exactly one failure notification; in particular a failed delete
leaves the task present in the canonical collection and leaves the
presented sequence unchanged.  (Reorder failures surface no notification
and are not rolled back.) -/
theorem C2_failure_rollback :
    (∀ (st : RemoteState) (title : String) (opts : AddOptions),
        st.user.isSome → addTaskR st none title opts = (st, 1))
    ∧ (∀ (st : RemoteState) (id : String) (p : PartialTask),
        st.user.isSome → updateTaskR st false id p = (st, 1))
    ∧ (∀ (st : RemoteState) (id : String),
        st.user.isSome → deleteTaskR st false id = (st, 1))
    ∧ (∀ (st : RemoteState) (id : String) (t : Task) (params : ViewParams),
        st.user.isSome → t ∈ st.tasks →
        t ∈ (deleteTaskR st false id).1.tasks
        ∧ filteredAndSortedTasks params (deleteTaskR st false id).1.tasks
            = filteredAndSortedTasks params st.tasks) := by
  have hdel : ∀ (st : RemoteState) (id : String),
      st.user.isSome → deleteTaskR st false id = (st, 1) := by
    intro st id h
    obtain ⟨u, ts⟩ := st
    obtain ⟨v, rfl⟩ := Option.isSome_iff_exists.mp h
    rfl
  refine ⟨?_, ?_, hdel, ?_⟩
  · intro st title opts h
    obtain ⟨u, ts⟩ := st
    obtain ⟨v, rfl⟩ := Option.isSome_iff_exists.mp h
    rfl
  · intro st id p h
    obtain ⟨u, ts⟩ := st
    obtain ⟨v, rfl⟩ := Option.isSome_iff_exists.mp h
    rfl
  · intro st id t params h hmem
    rw [hdel st id h]
    exact ⟨hmem, rfl⟩

/-- Claim C2 witness: the failed-mutation rollbacks and the failed-delete
retention at a concrete authenticated state. -/
theorem C2_failure_rollback_witness :
    addTaskR { user := some "u", tasks := [taskA] } none "New" {} =
      ({ user := some "u", tasks := [taskA] }, 1)
    ∧ updateTaskR { user := some "u", tasks := [taskA] } false "a"
        { completed := some true } = ({ user := some "u", tasks := [taskA] }, 1)
    ∧ deleteTaskR { user := some "u", tasks := [taskA] } false "a" =
        ({ user := some "u", tasks := [taskA] }, 1)
    ∧ taskA ∈ (deleteTaskR { user := some "u", tasks := [taskA] } false "a").1.tasks
    ∧ filteredAndSortedTasks sampleParams
        (deleteTaskR { user := some "u", tasks := [taskA] } false "a").1.tasks
        = filteredAndSortedTasks sampleParams [taskA] := by
  obtain ⟨h1, h2, h3, h4⟩ := C2_failure_rollback
  obtain ⟨hmem, hview⟩ :=
    h4 { user := some "u", tasks := [taskA] } "a" taskA sampleParams rfl
      (by decide)
  exact ⟨h1 _ "New" {} rfl, h2 _ "a" _ rfl, h3 _ "a" rfl, hmem, hview⟩

/-- Claim C5, counterexample: an add call with an empty title is not
rejected — the new task, bearing the empty title, is inserted into the
canonical collection. -/
theorem C5_counterexample :
    ((addTask [] "id0" 0 "" {}).2.map fun t => t.title) = [""]
    ∧ mkNewTask "id0" 0 "" {} 0 ∈ (addTask [] "id0" 0 "" {}).2 := by
  exact ⟨rfl, by decide⟩

/-- Claim C5 (amended): the engine's add performs no title validation — it
always inserts a new task carrying the given title verbatim, empty or not;
the rejection of empty and whitespace-only titles is the calling form's
contract, whose submit handler does not invoke add when the trimmed title
is empty. -/
theorem C5_title_contract :
    (∀ (tasks : List Task) (newId : String) (now : Int) (title : String)
        (opts : AddOptions),
        (addTask tasks newId now title opts).2 =
          mkNewTask newId now title opts tasks.length :: tasks
        ∧ (mkNewTask newId now title opts tasks.length).title = title)
    ∧ (∀ (title description : String) (dueDate : Option Int)
        (priority : Priority) (tags : List String)
        (categoryId : Option String),
        jsTrim title = "" →
        handleSubmit title description dueDate priority tags categoryId
          = none) := by
  constructor
  · intro tasks newId now title opts
    exact ⟨rfl, rfl⟩
  · intro title description dueDate priority tags categoryId h
    simp [handleSubmit, h]

/-- Claim C5 witness: the engine inserts a whitespace-only title, and the
form guard rejects it, at concrete inputs. -/
theorem C5_title_contract_witness :
    ((addTask [taskA] "id1" 7 "  " {}).2 =
        mkNewTask "id1" 7 "  " {} 1 :: [taskA]
      ∧ (mkNewTask "id1" 7 "  " {} 1).title = "  ")
    ∧ handleSubmit "  " "" none .medium [] none = none := by
  exact ⟨C5_title_contract.1 [taskA] "id1" 7 "  " {},
    C5_title_contract.2 "  " "" none .medium [] none (by decide)⟩

/-- Claim C7, counterexample: an add call whose supplied tag list contains
a duplicate stores it verbatim, so after the mutation the canonical
collection holds a task whose tags contain duplicate entries. -/
theorem C7_counterexample :
    ((addTask [] "id0" 0 "t" { tags := some ["a", "a"] }).2.map
        fun t => t.tags) = [["a", "a"]]
    ∧ ¬ (["a", "a"] : List String).Nodup := by
  exact ⟨rfl, by decide⟩

/-- Claim C7 (amended): the engine performs no tag deduplication — add and
update store the supplied tag list verbatim; duplicate-freedom is
maintained at the form boundary, whose add-tag handler refuses a tag
already present and therefore preserves duplicate-freedom of the tag list
it assembles. -/
theorem C7_tags_contract :
    (∀ (tasks : List Task) (newId : String) (now : Int) (title : String)
        (opts : AddOptions),
        ((addTask tasks newId now title opts).1).tags = opts.tags.getD [])
    ∧ (∀ (t : Task) (p : PartialTask) (ts : List String),
        p.tags = some ts → (mergeTask t p).tags = ts)
    ∧ (∀ (tags : List String) (tagInput : String),
        tags.Nodup → (formAddTag tags tagInput).1.Nodup) := by
  refine ⟨fun tasks newId now title opts => rfl, ?_, ?_⟩
  · intro t p ts h
    simp [mergeTask, h]
  · intro tags tagInput h
    unfold formAddTag
    split
    · next hc =>
      simpa [List.concat_eq_append] using h.concat hc.2
    · exact h

/-- Claim C7 witness: verbatim tag storage and the form guard's
duplicate-freedom preservation at concrete inputs. -/
theorem C7_tags_contract_witness :
    ((addTask [] "id0" 0 "t" { tags := some ["a", "a"] }).1).tags =
      (some ["a", "a"] : Option (List String)).getD []
    ∧ (mergeTask taskA { tags := some ["p", "p"] }).tags = ["p", "p"]
    ∧ (formAddTag ["x"] " y ").1.Nodup := by
  exact ⟨C7_tags_contract.1 [] "id0" 0 "t" { tags := some ["a", "a"] },
    C7_tags_contract.2.1 taskA { tags := some ["p", "p"] } ["p", "p"] rfl,
    C7_tags_contract.2.2 ["x"] " y " (by decide)⟩

/-- Claim C8: toggle-complete equals an update supplying the complemented
`completed` value whenever the target id is present (with ids unique, as
they are per the data-model invariant); it is a no-op when the id is
absent; toggling twice restores the collection exactly; and an update to
`completed := true` followed by a toggle leaves the matching task with
`completed = false`. -/
theorem C8_toggle_semantics :
    (∀ (tasks : List Task) (id : String) (t : Task),
        (tasks.map fun u => u.id).Nodup → t ∈ tasks → t.id = id →
        toggleComplete tasks id =
          updateTask tasks id { completed := some (!t.completed) })
    ∧ (∀ (tasks : List Task) (id : String),
        (∀ u ∈ tasks, u.id ≠ id) → toggleComplete tasks id = tasks)
    ∧ (∀ (tasks : List Task) (id : String),
        toggleComplete (toggleComplete tasks id) id = tasks)
    ∧ (∀ (tasks : List Task) (id : String) (u : Task),
        u ∈ toggleComplete (updateTask tasks id { completed := some true }) id →
        u.id = id → u.completed = false) := by
  refine ⟨?_, ?_, ?_, ?_⟩
  · intro tasks id t hnd hmem hid
    unfold toggleComplete updateTask
    apply List.map_congr_left
    intro u hu
    by_cases h : u.id = id
    · have hut : u = t := List.inj_on_of_nodup_map hnd hu hmem (by rw [h, hid])
      subst hut
      rw [if_pos h, if_pos h]
      rfl
    · rw [if_neg h, if_neg h]
  · intro tasks id h
    have h2 : ∀ u ∈ tasks,
        (if u.id = id then { u with completed := !u.completed } else u) = u :=
      fun u hu => if_neg (h u hu)
    exact (List.map_congr_left h2).trans (List.map_id tasks)
  · intro tasks id
    unfold toggleComplete
    rw [List.map_map]
    have h3 : ∀ u ∈ tasks,
        ((fun t => if t.id = id then { t with completed := !t.completed } else t) ∘
          fun t => if t.id = id then { t with completed := !t.completed } else t) u
          = u := by
      intro u hu
      by_cases h : u.id = id
      · simp [Function.comp_apply, h, Bool.not_not]
        rw [← h]
      · simp [Function.comp_apply, h]
    exact (List.map_congr_left h3).trans (List.map_id tasks)
  · intro tasks id u hu hid
    unfold toggleComplete updateTask at hu
    rw [List.map_map] at hu
    obtain ⟨u0, hu0, rfl⟩ := List.mem_map.mp hu
    by_cases h : u0.id = id
    · simp [Function.comp_apply, h, mergeTask]
    · rw [Function.comp_apply, if_neg h, if_neg h] at hid ⊢
      exact absurd hid h

/-- Claim C8 witness: the toggle laws at a concrete two-task collection
with distinct ids. -/
theorem C8_toggle_semantics_witness :
    toggleComplete [taskA, taskB] "a" =
      updateTask [taskA, taskB] "a" { completed := some (!taskA.completed) }
    ∧ toggleComplete [taskA, taskB] "zzz" = [taskA, taskB]
    ∧ toggleComplete (toggleComplete [taskA, taskB] "a") "a" = [taskA, taskB]
    ∧ ∀ u ∈ toggleComplete
        (updateTask [taskA, taskB] "a" { completed := some true }) "a",
        u.id = "a" → u.completed = false := by
  exact ⟨C8_toggle_semantics.1 [taskA, taskB] "a" taskA (by decide) (by decide) rfl,
    C8_toggle_semantics.2.1 [taskA, taskB] "zzz" (by decide),
    C8_toggle_semantics.2.2.1 [taskA, taskB] "a",
    fun u hu hid => C8_toggle_semantics.2.2.2 [taskA, taskB] "a" u hu hid⟩

/-- Claim C4, counterexample: `Partial<Task>` admits `id` (and
`createdAt`), and the in-memory spread merge applies any supplied field —
an update supplying `id` changes the matching task's `id` in the canonical
collection. -/
theorem C4_counterexample :
    updateTask [taskA] "a" { id := some "zzz" } = [{ taskA with id := "zzz" }]
    ∧ ({ taskA with id := "zzz" } : Task).id ≠ taskA.id := by
  exact ⟨by decide, by decide⟩

/-- Claim C4 (amended): update changes only the matching task, which
becomes the spread merge of the old task with the supplied fields; every
field not supplied — in particular `id` and `createdAt` when they are not
part of the partial — is unchanged, and every other task is unchanged.
The accepted field set, however, is all of `Partial<Task>`: a partial that
does supply `id` or `createdAt` overwrites them in memory. -/
theorem C4_update_frame :
    (∀ (tasks : List Task) (id : String) (p : PartialTask),
        (updateTask tasks id p).length = tasks.length)
    ∧ (∀ (tasks : List Task) (id : String) (p : PartialTask) (i : Nat)
          (h : i < tasks.length),
        (tasks.get ⟨i, h⟩).id ≠ id →
        (updateTask tasks id p)[i]? = some (tasks.get ⟨i, h⟩))
    ∧ (∀ (tasks : List Task) (id : String) (p : PartialTask) (i : Nat)
          (h : i < tasks.length),
        (tasks.get ⟨i, h⟩).id = id →
        (updateTask tasks id p)[i]? = some (mergeTask (tasks.get ⟨i, h⟩) p))
    ∧ (∀ (t : Task) (p : PartialTask),
        (p.id = none → (mergeTask t p).id = t.id)
        ∧ (p.createdAt = none → (mergeTask t p).createdAt = t.createdAt)
        ∧ (p.title = none → (mergeTask t p).title = t.title)
        ∧ (p.description = none → (mergeTask t p).description = t.description)
        ∧ (p.completed = none → (mergeTask t p).completed = t.completed)
        ∧ (p.dueDate = none → (mergeTask t p).dueDate = t.dueDate)
        ∧ (p.priority = none → (mergeTask t p).priority = t.priority)
        ∧ (p.tags = none → (mergeTask t p).tags = t.tags)
        ∧ (p.categoryId = none → (mergeTask t p).categoryId = t.categoryId)
        ∧ (p.reminder = none → (mergeTask t p).reminder = t.reminder)
        ∧ (p.isRecurring = none → (mergeTask t p).isRecurring = t.isRecurring)
        ∧ (p.recurringPattern = none →
            (mergeTask t p).recurringPattern = t.recurringPattern)
        ∧ (p.order = none → (mergeTask t p).order = t.order)) := by
  refine ⟨fun tasks id p => by simp [updateTask], ?_, ?_, ?_⟩
  · intro tasks id p i h hne
    rw [updateTask, List.getElem?_map, List.getElem?_eq_getElem h]
    simp only [Option.map_some']
    rw [List.get_eq_getElem] at hne ⊢
    rw [if_neg hne]
  · intro tasks id p i h heq
    rw [updateTask, List.getElem?_map, List.getElem?_eq_getElem h]
    simp only [Option.map_some']
    rw [List.get_eq_getElem] at heq ⊢
    rw [if_pos heq]
  · intro t p
    refine ⟨?_, ?_, ?_, ?_, ?_, ?_, ?_, ?_, ?_, ?_, ?_, ?_, ?_⟩ <;>
      (intro h; simp [mergeTask, h])

/-- Claim C4 witness: the frame conditions at a concrete two-task
collection and a partial supplying only `completed`. -/
theorem C4_update_frame_witness :
    (updateTask [taskA, taskB] "a" { completed := some true }).length = 2
    ∧ (updateTask [taskA, taskB] "a" { completed := some true })[1]? =
        some taskB
    ∧ (updateTask [taskA, taskB] "a" { completed := some true })[0]? =
        some (mergeTask taskA { completed := some true })
    ∧ (mergeTask taskA { completed := some true }).id = taskA.id
    ∧ (mergeTask taskA { completed := some true }).createdAt =
        taskA.createdAt := by
  refine ⟨C4_update_frame.1 [taskA, taskB] "a" _, ?_, ?_, ?_, ?_⟩
  · exact C4_update_frame.2.1 [taskA, taskB] "a" _ 1 (by decide) (by decide)
  · exact C4_update_frame.2.2.1 [taskA, taskB] "a" _ 0 (by decide) (by decide)
  · exact (C4_update_frame.2.2.2 taskA { completed := some true }).1 rfl
  · exact (C4_update_frame.2.2.2 taskA { completed := some true }).2.1 rfl

end TodoApp
